import Mathlib

/-!
Verification of the collocation-benchmark dataset stage
(`src/stages/dataset/torchvision_dataset.py`) against its natural-language
specification.

The embedding is shallow: Python classes become Lean structures, Python
methods become Lean functions, Python exceptions become explicit
`Except`/error values, and the unbounded `while True` loop of `run()` is
given explicit fuel.  Machinery of the generic `Stage` base class
(`get_next_from_queues`, `is_done`, `push_to_output`) is not under `src/`,
so those operations are modelled from the spec, as marked on each
definition.  Everything else is translated from the source file.
-/

namespace Collocation

/-- Queue record: either a data payload or the distinguished termination
sentinel (spec section 3, "Queue record"). -/
inductive Record (α : Type) where
  | data : α → Record α
  | sentinel : Record α
deriving DecidableEq

/-- Python exceptions that the translated code can raise. -/
inductive PyError where
  | indexError
  | typeError
  | zeroDivisionError
deriving DecidableEq

/-- Errors raised during stage construction (`TorchVisionDataset.__init__`).
`configError` stands for the `ValueError` raised on a missing configuration
key (the spec's `ConfigError`); `notFoundError` stands for the exception
raised on an unknown dataset or weights identifier (the spec's
`NotFoundError`). -/
inductive StageError where
  | configError
  | notFoundError
deriving DecidableEq

/-- Python list indexing `l[i]`: a negative index `i` addresses position
`len(l) + i`; any index that still falls outside the list raises
`IndexError`, modelled as `none`. -/
def pyGet {γ : Type} (l : List γ) (i : Int) : Option γ :=
  let j : Int := if i < 0 then (l.length : Int) + i else i
  if j < 0 then none else l.get? j.toNat

/-- State of one stage in the queue fabric: the contents of its input
queues (head = next record to be fetched) and of its output queues
(records in arrival order). -/
structure RunState (α : Type) where
  inputQueues : List (List (Record α))
  outputQueues : List (List (Record α))
deriving DecidableEq

/-- Modelled from the spec: `Stage.get_next_from_queues` is not under
`src/`.  Spec section 4.1 step 1: "Atomically fetch the next record from
all configured input queues (one record per queue, blocking if
necessary)."  Returns the fetched records in queue order together with the
remaining queue contents; `none` models blocking forever on an empty
queue. -/
def get_next_from_queues {α : Type} :
    List (List (Record α)) → Option (List (Record α) × List (List (Record α)))
  | [] => some ([], [])
  | q :: qs =>
    match q with
    | [] => none
    | r :: rest =>
      (get_next_from_queues qs).map fun p => (r :: p.1, rest :: p.2)

/-- Discriminator for the termination sentinel. -/
def isSentinel {α : Type} : Record α → Bool
  | .sentinel => true
  | .data _ => false

/-- Modelled from the spec: `Stage.is_done` is not under `src/`.  Spec
section 4.1 step 2: "If any fetched record is the termination sentinel,
treat the whole batch as end-of-stream." -/
def is_done {α : Type} (inputs : List (Record α)) : Bool :=
  inputs.any isSentinel

/-- Modelled from the spec: `Stage.push_to_output` is not under `src/`.
Spec section 4.1 step 5: "Push the selected record to every downstream
output queue." -/
def push_to_output {α : Type} (r : Record α) (outs : List (List (Record α))) :
    List (List (Record α)) :=
  outs.map fun q => q ++ [r]

/-- Outcome of running the stage loop for a bounded number of iterations. -/
inductive RunOutcome (α : Type) where
  | terminated : RunState α → RunOutcome α
  | error : PyError → RunOutcome α
  | incomplete : RunOutcome α
deriving DecidableEq

/-- `TorchVisionDataset.run` (source lines 116-128), with explicit fuel for
the `while True` loop.  Each iteration fetches one record from every input
queue; if any fetched record is the sentinel it pushes the first queue's
record and breaks (`terminated`), otherwise it pushes the first queue's
record and loops.  `list(inputs.values())[0]` on an empty dict raises
`IndexError`.  `incomplete` means the fuel ran out or a fetch blocked. -/
def run {α : Type} : Nat → RunState α → RunOutcome α
  | 0, _ => .incomplete
  | fuel + 1, st =>
    match get_next_from_queues st.inputQueues with
    | none => .incomplete
    | some (inputs, restQueues) =>
      match inputs.head? with
      | none => .error .indexError
      | some first =>
        if is_done inputs then
          .terminated { inputQueues := restQueues,
                        outputQueues := push_to_output first st.outputQueues }
        else
          run fuel { inputQueues := restQueues,
                     outputQueues := push_to_output first st.outputQueues }

/-- C1 (counterexample): the claim says that whenever the fetched records
include the sentinel, `run()` forwards *the sentinel* to the output.  With
input queues `[[data 0], [sentinel]]` the sentinel arrives on the second
queue, `run()` halts, but what it forwards is the first queue's record
`data 0`, not the sentinel: the output queue contains no sentinel at
all. -/
theorem C1_counterexample :
    run 1 ({ inputQueues := [[Record.data 0], [Record.sentinel]],
             outputQueues := [[]] } : RunState Nat) =
      .terminated { inputQueues := [[], []],
                    outputQueues := [[Record.data 0]] } ∧
    Record.sentinel ∉ [Record.data (0 : Nat)] := by
  exact ⟨rfl, by decide⟩

/-- C1 (amended): whenever the records fetched from the input queues
include the termination sentinel (in any queue), `run()` pushes the record
fetched from the *first* queue — which is the sentinel exactly when the
first queue yielded it — to every output queue and halts immediately
(the result does not depend on the remaining fuel), and the records still
pending in the queues after that single atomic fetch are left
unconsumed. -/
theorem C1_amended {α : Type} (fuel : Nat) (st : RunState α)
    (inputs : List (Record α)) (rest : List (List (Record α)))
    (r : Record α)
    (hfetch : get_next_from_queues st.inputQueues = some (inputs, rest))
    (hhead : inputs.head? = some r)
    (hdone : is_done inputs = true) :
    run (fuel + 1) st =
      .terminated { inputQueues := rest,
                    outputQueues := push_to_output r st.outputQueues } := by
  simp only [run, hfetch, hhead, hdone, if_true]

/-- Witness for `C1_amended` at a concrete input: first queue holds a data
record, second queue holds the sentinel. -/
theorem C1_amended_witness :
    run 5 ({ inputQueues := [[Record.data 0], [Record.sentinel]],
             outputQueues := [[]] } : RunState Nat) =
      .terminated { inputQueues := [[], []],
                    outputQueues := push_to_output (Record.data 0) [[]] } :=
  C1_amended 4 _ [Record.data 0, Record.sentinel] [[], []] (Record.data 0)
    rfl rfl rfl

/-- `PreloadedDataset` (source lines 11-23): holds the transform handed to
`__init__` and the list of `(sample, label)` pairs copied from the wrapped
dataset. -/
structure PreloadedDataset (α β : Type) where
  transform : Option (α → α)
  data : List (α × β)

/-- `PreloadedDataset.__len__` (source lines 22-23). -/
def PreloadedDataset.len {α β : Type} (d : PreloadedDataset α β) : Nat :=
  d.data.length

/-- `PreloadedDataset.__getitem__` (source lines 18-20):
`x, y = self.data[index]` raises `IndexError` outside Python list range,
then `self.transform(x)` raises `TypeError` when the transform is `None`
(it is called unconditionally, with no `None` guard). -/
def PreloadedDataset.getitem {α β : Type} (d : PreloadedDataset α β)
    (i : Int) : Except PyError (α × β) :=
  match pyGet d.data i with
  | none => .error .indexError
  | some p =>
    match d.transform with
    | none => .error .typeError
    | some t => .ok (t p.1, p.2)

/-- Modelled from the spec: the external torchvision provider collection is
not under `src/`.  Spec section 3, "IndexedCollection": an ordered sequence
of `(sample, label)` pairs, here `raw`, with an attached optional transform
which the provider applies to the sample at access time when present. -/
structure VisionDataset (α β : Type) where
  raw : List (α × β)
  transform : Option (α → α)

/-- Application of a provider's attached transform to one stored pair: the
transform maps the sample, the label passes through; an absent transform
leaves the pair unchanged. -/
def applyTransform {α β : Type} (tr : Option (α → α)) (p : α × β) : α × β :=
  match tr with
  | none => p
  | some t => (t p.1, p.2)

/-- Modelled from the spec: provider access `dataset[i]` (spec section 6,
provider interface) returns the stored pair with the attached transform
applied to the sample when one is present. -/
def VisionDataset.getitem {α β : Type} (v : VisionDataset α β) (i : Int) :
    Except PyError (α × β) :=
  match pyGet v.raw i with
  | none => .error .indexError
  | some p => .ok (applyTransform v.transform p)

/-- The sequence of pairs that a full index-order iteration of the provider
collection yields. -/
def VisionDataset.items {α β : Type} (v : VisionDataset α β) : List (α × β) :=
  v.raw.map (applyTransform v.transform)

/-- An entry of the stage's `self.datasets` mapping: a raw provider
collection at construction time, a `PreloadedDataset` after a preloading
`prepare()`. -/
inductive DatasetEntry (α β : Type) where
  | vision : VisionDataset α β → DatasetEntry α β
  | preloaded : PreloadedDataset α β → DatasetEntry α β

/-- `len(entry)`. -/
def DatasetEntry.len {α β : Type} : DatasetEntry α β → Nat
  | .vision v => v.raw.length
  | .preloaded d => d.data.length

/-- Read of the `.transform` attribute of a dataset entry. -/
def DatasetEntry.getTransform {α β : Type} :
    DatasetEntry α β → Option (α → α)
  | .vision v => v.transform
  | .preloaded d => d.transform

/-- Write of the `.transform` attribute of a dataset entry. -/
def DatasetEntry.setTransform {α β : Type} (t : Option (α → α)) :
    DatasetEntry α β → DatasetEntry α β
  | .vision v => .vision { v with transform := t }
  | .preloaded d => .preloaded { d with transform := t }

/-- `entry[i]`. -/
def DatasetEntry.getitem {α β : Type} : DatasetEntry α β → Int →
    Except PyError (α × β)
  | .vision v, i => v.getitem i
  | .preloaded d, i => d.getitem i

/-- `PreloadedDataset.__init__` (source lines 12-16): stores the transform
and copies `dataset[idx]` for `idx` in `range(len(dataset))`; an exception
raised by any access propagates. -/
def PreloadedDataset.ofEntry {α β : Type} (dataset : DatasetEntry α β)
    (transform : Option (α → α)) : Except PyError (PreloadedDataset α β) :=
  ((List.range dataset.len).mapM fun (idx : Nat) =>
      dataset.getitem (idx : Int)).map
    fun d => { transform := transform, data := d }

/-- Helper: a `mapM` over `Except` whose function succeeds pointwise is the
`.ok` of the corresponding `map`. -/
theorem mapM_eq_ok_map {γ δ ε : Type} (g : γ → Except ε δ) (f : γ → δ) :
    ∀ l : List γ, (∀ a ∈ l, g a = .ok (f a)) →
      l.mapM g = .ok (l.map f) := by
  intro l h
  induction l with
  | nil => rfl
  | cons a as ih =>
    rw [List.mapM_cons, h a (List.mem_cons_self a as),
      ih fun b hb => h b (List.mem_cons_of_mem a hb)]
    rfl

/-- Helper: reading every position of a list in index order reproduces the
list. -/
theorem map_getD_range {γ : Type} (l : List γ) (d : γ) :
    (List.range l.length).map (fun k => l.getD k d) = l := by
  induction l with
  | nil => rfl
  | cons x xs ih =>
    rw [List.length_cons, List.range_succ_eq_map, List.map_cons,
      List.map_map]
    simp only [List.getD_cons_zero, Function.comp_def, List.getD_cons_succ]
    rw [ih]

/-- Helper: Python indexing at a natural-number index inside the range. -/
theorem pyGet_nat {γ : Type} (l : List γ) (k : Nat) (hk : k < l.length)
    (d : γ) : pyGet l (k : Int) = some (l.getD k d) := by
  unfold pyGet
  have h0 : ¬((k : Int) < 0) := by omega
  simp only [h0, if_false, Int.toNat_natCast]
  rw [List.getD_eq_getElem?_getD, List.getElem?_eq_getElem hk]
  rw [List.get?_eq_getElem?, List.getElem?_eq_getElem hk]
  rfl

/-- Helper: Python indexing commutes with `List.map`. -/
theorem pyGet_map {γ δ : Type} (g : γ → δ) (l : List γ) (i : Int) :
    pyGet (l.map g) i = (pyGet l i).map g := by
  have hg : ∀ X : Nat, (l.map g).get? X = (l.get? X).map g := by
    intro X
    rw [List.get?_eq_getElem?, List.get?_eq_getElem?, List.getElem?_map]
  unfold pyGet
  simp only [List.length_map]
  split
  · split
    · rfl
    · exact hg _
  · exact hg _

/-- Helper: constructing a `PreloadedDataset` from a provider collection
always succeeds and snapshots exactly the pairs a full iteration of the
provider yields; the given transform is stored, not applied. -/
theorem ofEntry_vision {α β : Type} (v : VisionDataset α β)
    (t : Option (α → α)) :
    PreloadedDataset.ofEntry (.vision v) t = .ok ⟨t, v.items⟩ := by
  obtain ⟨raw, tr⟩ := v
  cases raw with
  | nil => rfl
  | cons p ps =>
    have h : ∀ a ∈ List.range (p :: ps).length,
        DatasetEntry.getitem (.vision ⟨p :: ps, tr⟩) (a : Int) =
          Except.ok (applyTransform tr ((p :: ps).getD a p)) := by
      intro a ha
      rw [List.mem_range] at ha
      show VisionDataset.getitem ⟨p :: ps, tr⟩ (a : Int) = _
      unfold VisionDataset.getitem
      rw [pyGet_nat (p :: ps) a ha p]
    simp only [PreloadedDataset.ofEntry, DatasetEntry.len]
    rw [mapM_eq_ok_map _
      (fun k => applyTransform tr ((p :: ps).getD k p)) _ h]
    rw [show (List.range (p :: ps).length).map
          (fun k => applyTransform tr ((p :: ps).getD k p)) =
        ((List.range (p :: ps).length).map
          (fun k => (p :: ps).getD k p)).map (applyTransform tr) by
      rw [List.map_map]; rfl]
    rw [map_getD_range]
    rfl

/-- Helper: iterating a provider collection whose transform is absent
yields exactly the raw pairs. -/
theorem items_none {α β : Type} (raw : List (α × β)) :
    VisionDataset.items ⟨raw, none⟩ = raw := by
  show raw.map (applyTransform none) = raw
  exact List.map_id' raw

/-- Helper: constructing a `PreloadedDataset` over an entry whose transform
slot holds `None` and whose data is empty succeeds (no access is ever
made). -/
theorem ofEntry_preloaded_nil {α β : Type} (tr t : Option (α → α)) :
    PreloadedDataset.ofEntry
        (.preloaded (⟨tr, []⟩ : PreloadedDataset α β)) t =
      .ok ⟨t, []⟩ := rfl

/-- Helper: constructing a `PreloadedDataset` by iterating a nonempty
preloaded dataset whose transform is `None` raises `TypeError` at the very
first access, because `PreloadedDataset.__getitem__` calls the `None`
transform unconditionally. -/
theorem ofEntry_preloaded_none {α β : Type} (data : List (α × β))
    (t : Option (α → α)) (hne : data ≠ []) :
    PreloadedDataset.ofEntry (.preloaded ⟨none, data⟩) t =
      .error .typeError := by
  cases data with
  | nil => exact absurd rfl hne
  | cons p ps =>
    simp only [PreloadedDataset.ofEntry, DatasetEntry.len, List.length_cons,
      List.range_succ_eq_map]
    rfl

/-- C2: for every source collection, transform `T` and in-range index `i`,
`PreloadedDataset(source, T)` is constructed successfully, its stored data
is exactly what a full iteration of the source yields (copied verbatim,
`T` not applied at construction), and `get(i)` returns the source's pair at
`i` with `T` applied to the sample.  `T` is applied at read time on the
stored pair, so it is applied fresh on every `get`. -/
theorem C2_preload_equivalence {α β : Type} (v : VisionDataset α β)
    (T : α → α) (i : Nat) (hi : i < v.raw.length) :
    ∃ cache : PreloadedDataset α β,
      PreloadedDataset.ofEntry (.vision v) (some T) = .ok cache ∧
      cache.data = v.items ∧
      cache.getitem (i : Int) =
        (v.getitem (i : Int)).map fun p => (T p.1, p.2) := by
  refine ⟨⟨some T, v.items⟩, ofEntry_vision v (some T), rfl, ?_⟩
  have hlen : i < v.items.length := by
    unfold VisionDataset.items
    rw [List.length_map]
    exact hi
  unfold PreloadedDataset.getitem VisionDataset.getitem VisionDataset.items
  rw [pyGet_map]
  cases pyGet v.raw (i : Int) with
  | none => rfl
  | some p => rfl

/-- Witness for `C2_preload_equivalence` at a concrete one-element source
collection with transform `fun x => x + 10` and index `0`. -/
theorem C2_preload_equivalence_witness :
    ∃ cache : PreloadedDataset Nat Nat,
      PreloadedDataset.ofEntry
          (.vision ⟨[((1 : Nat), (2 : Nat))], none⟩) (some fun x => x + 10) =
        .ok cache ∧
      cache.data = VisionDataset.items ⟨[((1 : Nat), (2 : Nat))], none⟩ ∧
      cache.getitem ((0 : Nat) : Int) =
        (VisionDataset.getitem ⟨[((1 : Nat), (2 : Nat))], none⟩
            ((0 : Nat) : Int)).map
          fun p => ((fun x => x + 10) p.1, p.2) :=
  C2_preload_equivalence ⟨[(1, 2)], none⟩ (fun x => x + 10) 0 (by decide)

/-- C9 (counterexample): the claim says `get(index)` fails with
`IndexError` for every index outside `0 <= index < n`, including every
negative index.  But `self.data[index]` is Python list indexing: on a
one-element cache, `get(-1)` succeeds and returns the transformed last
element instead of raising. -/
theorem C9_counterexample :
    PreloadedDataset.getitem
        ⟨some (fun x => x + 1), [((5 : Nat), (6 : Nat))]⟩ (-1) =
      .ok (6, 6) := rfl

/-- C9 (amended): for a cache of length `n` holding a callable transform
`T`: `get(index)` returns `(T(sample), label)` of the stored pair at
`index` for `0 <= index < n`, returns the stored pair at `n + index`
(Python negative indexing) for `-n <= index < 0`, and fails with
`IndexError` exactly when `index >= n` or `index < -n`. -/
theorem C9_amended {α β : Type} (T : α → α) (data : List (α × β)) (i : Int) :
    (0 ≤ i → i < (data.length : Int) →
      ∃ p, data.get? i.toNat = some p ∧
        PreloadedDataset.getitem ⟨some T, data⟩ i = .ok (T p.1, p.2)) ∧
    (-(data.length : Int) ≤ i → i < 0 →
      ∃ p, data.get? ((data.length : Int) + i).toNat = some p ∧
        PreloadedDataset.getitem ⟨some T, data⟩ i = .ok (T p.1, p.2)) ∧
    (((data.length : Int) ≤ i ∨ i < -(data.length : Int)) →
      PreloadedDataset.getitem ⟨some T, data⟩ i = .error .indexError) := by
  refine ⟨?_, ?_, ?_⟩
  · intro h0 hlen
    have hnot : ¬ i < 0 := by omega
    have ht : i.toNat < data.length := by omega
    refine ⟨data.get ⟨i.toNat, ht⟩, ?_, ?_⟩
    · rw [List.get?_eq_getElem?, List.getElem?_eq_getElem ht]
      rfl
    · unfold PreloadedDataset.getitem pyGet
      simp only [hnot, if_false]
      rw [List.get?_eq_getElem?, List.getElem?_eq_getElem ht]
      rfl
  · intro hge hneg
    have ht : ((data.length : Int) + i).toNat < data.length := by omega
    have hnotlt : ¬ (data.length : Int) + i < 0 := by omega
    refine ⟨data.get ⟨((data.length : Int) + i).toNat, ht⟩, ?_, ?_⟩
    · rw [List.get?_eq_getElem?, List.getElem?_eq_getElem ht]
      rfl
    · unfold PreloadedDataset.getitem pyGet
      simp only [hneg, if_true, hnotlt, if_false]
      rw [List.get?_eq_getElem?, List.getElem?_eq_getElem ht]
      rfl
  · intro hout
    unfold PreloadedDataset.getitem pyGet
    cases hout with
    | inl hge =>
      have hnot : ¬ i < 0 := by omega
      have ht : data.length ≤ i.toNat := by omega
      simp only [hnot, if_false]
      rw [List.get?_eq_getElem?, List.getElem?_eq_none ht]
    | inr hlt =>
      have hneg : i < 0 := by omega
      have hj : (data.length : Int) + i < 0 := by omega
      simp only [hneg, if_true, hj]

/-- Witness for `C9_amended` on a one-element cache at index `0`. -/
theorem C9_amended_witness :
    ∃ p, [((5 : Nat), (6 : Nat))].get? (Int.toNat 0) = some p ∧
      PreloadedDataset.getitem
          ⟨some (fun x => x + 1), [((5 : Nat), (6 : Nat))]⟩ 0 =
        .ok ((fun x => x + 1) p.1, p.2) :=
  (C9_amended (fun x => x + 1) [(5, 6)] 0).1 (by decide) (by decide)

/-- State of a constructed `TorchVisionDataset` stage: the fields set by
`__init__` (source lines 32-82) that the claims concern.  `datasets` is
`self.datasets` as an insertion-ordered mapping from split name to
collection. -/
structure TVState (α β : Type) where
  preload : Bool
  datasets : List (String × DatasetEntry α β)
  batch_size : Int

/-- `TorchVisionDataset.prepare` (source lines 100-114): no-op when
`preload` is false; otherwise, for every split key, reads the entry's
transform, sets the entry's transform attribute to `None`, builds a
`PreloadedDataset` from the entry and the detached transform, and replaces
the mapping's entry with it.  An exception raised while preloading
propagates. -/
def TVState.prepare {α β : Type} (st : TVState α β) :
    Except PyError (TVState α β) :=
  if st.preload then
    (st.datasets.mapM fun kv =>
        (PreloadedDataset.ofEntry (kv.2.setTransform none)
            kv.2.getTransform).map
          fun pd => (kv.1, DatasetEntry.preloaded pd)).map
      fun ds => { st with datasets := ds }
  else .ok st

/-- Helper: `prepare()` on a state whose entries are all raw provider
collections — a no-op when `preload` is false, and with `preload` true a
successful replacement of every entry by a cache holding the entry's
detached transform and its raw pairs. -/
theorem prepare_vision_ok {α β : Type} (pre : Bool) (bs : Int)
    (ds : List (String × VisionDataset α β)) :
    TVState.prepare ⟨pre, ds.map fun kv => (kv.1, .vision kv.2), bs⟩ =
      .ok ⟨pre,
        if pre then
          ds.map fun kv =>
            (kv.1, DatasetEntry.preloaded ⟨kv.2.transform, kv.2.raw⟩)
        else ds.map fun kv => (kv.1, DatasetEntry.vision kv.2), bs⟩ := by
  cases pre with
  | false => rfl
  | true =>
    simp only [TVState.prepare, if_true]
    have h : ∀ a ∈ ds.map fun kv => (kv.1, DatasetEntry.vision kv.2),
        (PreloadedDataset.ofEntry (a.2.setTransform none)
            a.2.getTransform).map
          (fun pd => (a.1, DatasetEntry.preloaded pd)) =
        Except.ok ((fun kv' => (kv'.1, DatasetEntry.preloaded
          ⟨kv'.2.getTransform,
            match kv'.2 with
            | .vision v => v.raw
            | .preloaded d => d.data⟩)) a) := by
      intro a ha
      obtain ⟨kv, _, rfl⟩ := List.mem_map.mp ha
      show (PreloadedDataset.ofEntry
          (.vision { kv.2 with transform := none }) kv.2.transform).map _ = _
      rw [ofEntry_vision { kv.2 with transform := none } kv.2.transform]
      show Except.ok _ = _
      rw [items_none]
      rfl
    rw [mapM_eq_ok_map _ _ _ h, List.map_map]
    rfl

/-- C4: on a freshly constructed stage (all entries are raw provider
collections), a single `prepare()` with `preload` true replaces every
split's entry by a cache whose stored transform is the entry's detached
transform and whose data is the collection's pairs read with the transform
detached; with `preload` false, `prepare()` returns the state unchanged. -/
theorem C4_prepare {α β : Type} (pre : Bool) (bs : Int)
    (ds : List (String × VisionDataset α β)) :
    TVState.prepare ⟨pre, ds.map fun kv => (kv.1, .vision kv.2), bs⟩ =
      .ok ⟨pre,
        if pre then
          ds.map fun kv =>
            (kv.1, DatasetEntry.preloaded ⟨kv.2.transform, kv.2.raw⟩)
        else ds.map fun kv => (kv.1, DatasetEntry.vision kv.2), bs⟩ :=
  prepare_vision_ok pre bs ds

/-- Helper: running the preloading loop over a mapping in which every
entry is already a `PreloadedDataset` raises `TypeError` as soon as some
entry is nonempty: the loop first sets the entry's transform to `None`,
then re-iterates it through `PreloadedDataset.__getitem__`, which calls
the now-`None` transform. -/
theorem mapM_preloaded_error {α β : Type} :
    ∀ ds : List (String × DatasetEntry α β),
      (∀ kv ∈ ds, ∃ pd : PreloadedDataset α β, kv.2 = .preloaded pd) →
      (∃ kv ∈ ds, kv.2.len ≠ 0) →
      (ds.mapM fun kv =>
        (PreloadedDataset.ofEntry (kv.2.setTransform none)
            kv.2.getTransform).map
          fun pd => (kv.1, DatasetEntry.preloaded pd)) =
        .error .typeError := by
  intro ds hall hsome
  induction ds with
  | nil =>
    obtain ⟨kv, hkv, _⟩ := hsome
    exact absurd hkv (List.not_mem_nil kv)
  | cons a as ih =>
    obtain ⟨q, hq⟩ := hall a (List.mem_cons_self a as)
    obtain ⟨qt, qd⟩ := q
    simp only [List.mapM_cons]
    cases qd with
    | nil =>
      rw [hq]
      have hhead : (PreloadedDataset.ofEntry
            ((DatasetEntry.preloaded
              (⟨qt, []⟩ : PreloadedDataset α β)).setTransform none)
            (DatasetEntry.preloaded
              (⟨qt, []⟩ : PreloadedDataset α β)).getTransform).map
          (fun pd => (a.1, DatasetEntry.preloaded pd)) =
          Except.ok (a.1, DatasetEntry.preloaded ⟨qt, []⟩) := rfl
      rw [hhead]
      have hsome' : ∃ kv ∈ as, DatasetEntry.len kv.2 ≠ 0 := by
        obtain ⟨kv, hkv, hlen⟩ := hsome
        cases List.mem_cons.mp hkv with
        | inl heq =>
          exfalso
          apply hlen
          rw [heq, hq]
          rfl
        | inr hmem => exact ⟨kv, hmem, hlen⟩
      rw [ih (fun kv hkv => hall kv (List.mem_cons_of_mem a hkv)) hsome']
      rfl
    | cons p psd =>
      rw [hq]
      have hofe := ofEntry_preloaded_none (p :: psd) qt (List.cons_ne_nil p psd)
      have hhead : (PreloadedDataset.ofEntry
            ((DatasetEntry.preloaded
              (⟨qt, p :: psd⟩ : PreloadedDataset α β)).setTransform none)
            (DatasetEntry.preloaded
              (⟨qt, p :: psd⟩ : PreloadedDataset α β)).getTransform).map
          (fun pd => (a.1, DatasetEntry.preloaded pd)) =
          Except.error .typeError := by
        show (PreloadedDataset.ofEntry
            (.preloaded ⟨none, p :: psd⟩) qt).map _ = _
        rw [hofe]
        rfl
      rw [hhead]
      rfl

/-- C10: a `PreloadedDataset` built with the default transform (`None`)
is constructed successfully but cannot serve any in-range read — every
`get` raises `TypeError` because the `None` transform is called
unconditionally.  Consequently, on a stage with `preload` true and a
nonempty split, a first `prepare()` succeeds (turning every entry into a
cache) but a second `prepare()` fails with `TypeError`: it detaches each
cache's transform, setting it to `None`, and then re-iterates the cache. -/
theorem C10_none_transform {α β : Type} (bs : Int)
    (ds : List (String × VisionDataset α β))
    (hne : ∃ kv ∈ ds, kv.2.raw ≠ []) :
    (∀ v : VisionDataset α β, ∃ cache : PreloadedDataset α β,
      PreloadedDataset.ofEntry (.vision v) none = .ok cache ∧
      cache.transform = none ∧
      ∀ i : Int, 0 ≤ i → i < (cache.data.length : Int) →
        cache.getitem i = .error .typeError) ∧
    ∃ st₁ : TVState α β,
      TVState.prepare ⟨true, ds.map fun kv => (kv.1, .vision kv.2), bs⟩ =
        .ok st₁ ∧
      st₁.prepare = .error .typeError := by
  constructor
  · intro v
    refine ⟨⟨none, v.items⟩, ofEntry_vision v none, rfl, ?_⟩
    intro i h0 hlen
    have hlen2 : i < (v.items.length : Int) := hlen
    have hnot : ¬ i < 0 := by omega
    have ht : i.toNat < v.items.length := by omega
    unfold PreloadedDataset.getitem pyGet
    simp only [hnot, if_false]
    rw [List.get?_eq_getElem?, List.getElem?_eq_getElem ht]
  · refine ⟨⟨true, ds.map fun kv =>
      (kv.1, DatasetEntry.preloaded ⟨kv.2.transform, kv.2.raw⟩), bs⟩, ?_, ?_⟩
    · have h := prepare_vision_ok true bs ds
      rw [if_pos rfl] at h
      exact h
    · show Except.map _ _ = _
      rw [mapM_preloaded_error
        (ds.map fun kv =>
          (kv.1, DatasetEntry.preloaded ⟨kv.2.transform, kv.2.raw⟩))
        ?_ ?_]
      · rfl
      · intro kv hkv
        obtain ⟨kv', _, rfl⟩ := List.mem_map.mp hkv
        exact ⟨⟨kv'.2.transform, kv'.2.raw⟩, rfl⟩
      · obtain ⟨kv, hkv, hraw⟩ := hne
        refine ⟨(kv.1, DatasetEntry.preloaded ⟨kv.2.transform, kv.2.raw⟩),
          List.mem_map.mpr ⟨kv, hkv, rfl⟩, ?_⟩
        show kv.2.raw.length ≠ 0
        intro h
        exact hraw (List.length_eq_zero.mp h)

/-- Witness for `C10_none_transform` on a stage with one split holding a
one-element collection. -/
theorem C10_none_transform_witness :
    (∀ v : VisionDataset Nat Nat, ∃ cache : PreloadedDataset Nat Nat,
      PreloadedDataset.ofEntry (.vision v) none = .ok cache ∧
      cache.transform = none ∧
      ∀ i : Int, 0 ≤ i → i < (cache.data.length : Int) →
        cache.getitem i = .error .typeError) ∧
    ∃ st₁ : TVState Nat Nat,
      TVState.prepare ⟨true,
        [("val", VisionDataset.mk [((1 : Nat), (2 : Nat))]
            (some fun x => x + 1))].map
          fun kv => (kv.1, .vision kv.2), 1⟩ = .ok st₁ ∧
      st₁.prepare = .error .typeError :=
  C10_none_transform 1
    [("val", ⟨[(1, 2)], some fun x => x + 1⟩)]
    ⟨("val", ⟨[(1, 2)], some fun x => x + 1⟩),
      List.mem_singleton.mpr rfl, by simp⟩

/-- The configuration keys read by `TorchVisionDataset.__init__` (source
lines 43-82); `none` models an absent key, so each `stage_config.get(key,
default)` becomes `Option.getD`. -/
structure StageConfig where
  dataset_name : Option String
  split : Option (List String)
  weights : Option String
  preload : Option Bool
  batch_size : Option Int

/-- Modelled from the spec: the external collaborators called by
`__init__` — the provider registry (`torchvision.datasets.__dict__`,
giving for a known name a constructor taking split, download flag and
transform), the weights registry (`get_weight(name).transforms()`), the
default `v2.ToTensor()` transform, and the result of the
`os.path.exists` probe for the dataset's storage path. -/
structure Env (α β : Type) where
  providers :
    String → Option (String → Bool → Option (α → α) → VisionDataset α β)
  getWeight : String → Option (α → α)
  toTensor : α → α
  downloaded : String → Bool

/-- The I/O actions `__init__` can perform, in program order: the
storage-existence probe and the per-split provider instantiation (which
downloads when its flag is set). -/
inductive IOEvent where
  | existsProbe (dataset_name : String)
  | instantiate (dataset_name split : String) (download : Bool)
deriving DecidableEq

/-- One Python dict insertion `d[k] = v`: overwrites in place if the key
exists, else appends (insertion order preserved). -/
def dictInsert {V : Type} (k : String) (v : V) :
    List (String × V) → List (String × V)
  | [] => [(k, v)]
  | kv :: rest =>
    if kv.1 = k then (k, v) :: rest else kv :: dictInsert k v rest

/-- A Python dict comprehension `\x7bx: f(x) for x in keys\x7d`. -/
def dictComprehension {V : Type} (keys : List String) (f : String → V) :
    List (String × V) :=
  keys.foldl (fun d k => dictInsert k (f k) d) []

/-- Helper: key membership after one dict insertion. -/
theorem mem_keys_dictInsert {V : Type} (k s : String) (v : V) :
    ∀ d : List (String × V),
      s ∈ (dictInsert k v d).map Prod.fst ↔
        s = k ∨ s ∈ d.map Prod.fst := by
  intro d
  induction d with
  | nil => simp [dictInsert]
  | cons kv rest ih =>
    by_cases h : kv.1 = k
    · simp only [dictInsert, h, if_true, List.map_cons, List.mem_cons]
      tauto
    · simp only [dictInsert, h, if_false, List.map_cons, List.mem_cons, ih]
      tauto

/-- Helper: dict insertion preserves distinctness of keys. -/
theorem nodup_keys_dictInsert {V : Type} (k : String) (v : V) :
    ∀ d : List (String × V), (d.map Prod.fst).Nodup →
      ((dictInsert k v d).map Prod.fst).Nodup := by
  intro d
  induction d with
  | nil => intro _; simp [dictInsert]
  | cons kv rest ih =>
    intro hnd
    rw [List.map_cons, List.nodup_cons] at hnd
    obtain ⟨hnotin, hnd2⟩ := hnd
    by_cases h : kv.1 = k
    · simp only [dictInsert, h, if_true, List.map_cons, List.nodup_cons]
      exact ⟨h ▸ hnotin, hnd2⟩
    · simp only [dictInsert, h, if_false, List.map_cons, List.nodup_cons]
      refine ⟨?_, ih hnd2⟩
      rw [mem_keys_dictInsert]
      push_neg
      exact ⟨h, hnotin⟩

/-- Helper: keys accumulated by the dict-comprehension fold. -/
theorem dictComp_aux_mem {V : Type} (f : String → V) (s : String) :
    ∀ (keys : List String) (acc : List (String × V)),
      s ∈ (keys.foldl (fun d k => dictInsert k (f k) d) acc).map Prod.fst ↔
        s ∈ acc.map Prod.fst ∨ s ∈ keys := by
  intro keys
  induction keys with
  | nil => intro acc; simp
  | cons k ks ih =>
    intro acc
    rw [List.foldl_cons, ih (dictInsert k (f k) acc), mem_keys_dictInsert]
    simp only [List.mem_cons]
    tauto

/-- Helper: the dict-comprehension fold keeps keys distinct. -/
theorem dictComp_aux_nodup {V : Type} (f : String → V) :
    ∀ (keys : List String) (acc : List (String × V)),
      (acc.map Prod.fst).Nodup →
      ((keys.foldl (fun d k => dictInsert k (f k) d) acc).map
        Prod.fst).Nodup := by
  intro keys
  induction keys with
  | nil => intro acc h; exact h
  | cons k ks ih =>
    intro acc h
    exact ih (dictInsert k (f k) acc) (nodup_keys_dictInsert k (f k) acc h)

/-- Helper: a split name has exactly one entry among the comprehension's
keys iff it was requested. -/
theorem dictComp_mem_keys {V : Type} (f : String → V) (s : String)
    (keys : List String) :
    s ∈ (dictComprehension keys f).map Prod.fst ↔ s ∈ keys := by
  unfold dictComprehension
  rw [dictComp_aux_mem]
  simp

/-- Helper: the comprehension's keys are distinct. -/
theorem dictComp_keys_nodup {V : Type} (keys : List String)
    (f : String → V) :
    ((dictComprehension keys f).map Prod.fst).Nodup := by
  unfold dictComprehension
  exact dictComp_aux_nodup f keys [] (by simp)

/-- `TorchVisionDataset.__init__` (source lines 32-82), as a function from
the external environment and the configuration to the I/O actions
performed and either a construction error or the constructed state.  The
control flow follows the source: read `preload`; fail with the
missing-name error if `dataset_name` is absent; fail with the
unknown-provider error if the provider lookup misses; read `split`
(default `["val"]`); probe storage; if `weights` is absent build each
split's collection with the `ToTensor` transform, else resolve the
weights' preprocessing transform (failing if unknown) and use it; read
`batch_size` (default 1). -/
def TorchVisionDataset.init {α β : Type} (env : Env α β)
    (cfg : StageConfig) :
    List IOEvent × Except StageError (TVState α β) :=
  match cfg.dataset_name with
  | none => ([], .error .configError)
  | some dataset_name =>
    match env.providers dataset_name with
    | none => ([], .error .notFoundError)
    | some dataset =>
      match cfg.weights with
      | none =>
        (IOEvent.existsProbe dataset_name ::
          (cfg.split.getD ["val"]).map fun x =>
            .instantiate dataset_name x (!env.downloaded dataset_name),
         .ok { preload := cfg.preload.getD false,
               datasets := dictComprehension (cfg.split.getD ["val"])
                 fun x => .vision (dataset x
                   (!env.downloaded dataset_name) (some env.toTensor)),
               batch_size := cfg.batch_size.getD 1 })
      | some weights_name =>
        match env.getWeight weights_name with
        | none => ([IOEvent.existsProbe dataset_name], .error .notFoundError)
        | some preprocess =>
          (IOEvent.existsProbe dataset_name ::
            (cfg.split.getD ["val"]).map fun x =>
              .instantiate dataset_name x (!env.downloaded dataset_name),
           .ok { preload := cfg.preload.getD false,
                 datasets := dictComprehension (cfg.split.getD ["val"])
                   fun x => .vision (dataset x
                     (!env.downloaded dataset_name) (some preprocess)),
                 batch_size := cfg.batch_size.getD 1 })

/-- `TorchVisionDataset.get_num_batches` (source lines 92-98):
`\x7bk: len(v) // self.batch_size for (k, v) in self.datasets.items()\x7d`.
Python `//` on integers is floor division (`Int.fdiv`) and raises
`ZeroDivisionError` when the divisor is zero. -/
def TVState.get_num_batches {α β : Type} (st : TVState α β) :
    Except PyError (List (String × Int)) :=
  st.datasets.mapM fun kv =>
    if st.batch_size = 0 then .error .zeroDivisionError
    else .ok (kv.1, Int.fdiv (kv.2.len : Int) st.batch_size)

/-- C5: whenever `dataset_name` is absent from the configuration,
construction fails with the missing-name configuration error and no I/O
action is performed (the event trace is empty): the check precedes the
storage probe and every provider instantiation, for every environment. -/
theorem C5_missing_dataset_name {α β : Type} (env : Env α β)
    (cfg : StageConfig) (h : cfg.dataset_name = none) :
    TorchVisionDataset.init env cfg = ([], .error .configError) := by
  unfold TorchVisionDataset.init
  rw [h]

/-- Trivial environment used by the construction-error witnesses: no
provider and no weights are known. -/
def envNone : Env Nat Nat :=
  { providers := fun _ => none
    getWeight := fun _ => none
    toTensor := id
    downloaded := fun _ => false }

/-- Witness for `C5_missing_dataset_name` on the empty configuration. -/
theorem C5_missing_dataset_name_witness :
    TorchVisionDataset.init envNone ⟨none, none, none, none, none⟩ =
      ([], .error .configError) :=
  C5_missing_dataset_name envNone ⟨none, none, none, none, none⟩ rfl

/-- C6: whenever `dataset_name` names no known provider, construction
fails with the unknown-identifier error (and, likewise, before any I/O
action). -/
theorem C6_unknown_provider {α β : Type} (env : Env α β)
    (cfg : StageConfig) (name : String)
    (hname : cfg.dataset_name = some name)
    (hprov : env.providers name = none) :
    TorchVisionDataset.init env cfg = ([], .error .notFoundError) := by
  unfold TorchVisionDataset.init
  simp only [hname, hprov]

/-- Witness for `C6_unknown_provider` on a configuration naming an unknown
dataset. -/
theorem C6_unknown_provider_witness :
    TorchVisionDataset.init envNone
        ⟨some "NoSuchDataset", none, none, none, none⟩ =
      ([], .error .notFoundError) :=
  C6_unknown_provider envNone ⟨some "NoSuchDataset", none, none, none, none⟩
    "NoSuchDataset" rfl rfl

/-- Raw data of the concrete example collection: ten `(i, i)` pairs. -/
def exRaw : List (Nat × Nat) :=
  (List.range 10).map fun i => (i, i)

/-- Concrete environment knowing exactly one provider, `"Example"`, whose
collections hold `exRaw` with whatever transform is attached; the dataset
counts as already downloaded. -/
def envEx : Env Nat Nat :=
  { providers := fun n =>
      if n = "Example" then some (fun _ _ tr => ⟨exRaw, tr⟩) else none
    getWeight := fun _ => none
    toTensor := id
    downloaded := fun _ => true }

/-- Helper: the shape of every successfully constructed state — its
`datasets` mapping is the dict comprehension over the requested splits,
and `batch_size` and `preload` take their configured-or-default values. -/
theorem init_ok_shape {α β : Type} (env : Env α β) (cfg : StageConfig)
    (st : TVState α β)
    (hok : (TorchVisionDataset.init env cfg).2 = .ok st) :
    ∃ f : String → DatasetEntry α β,
      st.datasets = dictComprehension (cfg.split.getD ["val"]) f ∧
      st.batch_size = cfg.batch_size.getD 1 ∧
      st.preload = cfg.preload.getD false := by
  unfold TorchVisionDataset.init at hok
  split at hok
  · exact Except.noConfusion hok
  · split at hok
    · exact Except.noConfusion hok
    · split at hok
      · have h := Except.ok.inj hok
        exact ⟨_, by rw [← h], by rw [← h], by rw [← h]⟩
      · split at hok
        · exact Except.noConfusion hok
        · have h := Except.ok.inj hok
          exact ⟨_, by rw [← h], by rw [← h], by rw [← h]⟩

/-- Helper: with a positive `batch_size`, `get_num_batches` succeeds and
each split's count is the natural floor division of the collection length
by `batch_size`. -/
theorem get_num_batches_pos {α β : Type} (st : TVState α β)
    (hbs : 0 < st.batch_size) :
    st.get_num_batches = .ok (st.datasets.map fun kv =>
      (kv.1, ((kv.2.len / st.batch_size.toNat : Nat) : Int))) := by
  unfold TVState.get_num_batches
  apply mapM_eq_ok_map
  intro kv _
  have hz : ¬ st.batch_size = 0 := by omega
  simp only [hz, if_false]
  rw [Int.ofNat_fdiv, Int.toNat_of_nonneg (le_of_lt hbs)]

/-- C7 (counterexample): the claim asserts `get_num_batches()[s] ==
floor(len / batch_size)` for *every* successfully constructed stage, but
`batch_size` is stored unvalidated: with `batch_size = 0` the stage is
constructed successfully and `get_num_batches` raises
`ZeroDivisionError` instead of returning any floor value. -/
theorem C7_counterexample :
    (TorchVisionDataset.init envEx
        ⟨some "Example", none, none, none, some 0⟩).2 =
      .ok ⟨false, [("val", .vision ⟨exRaw, some id⟩)], 0⟩ ∧
    TVState.get_num_batches
        (⟨false, [("val", .vision ⟨exRaw, some id⟩)], 0⟩ :
          TVState Nat Nat) =
      .error .zeroDivisionError :=
  ⟨rfl, rfl⟩

/-- C7 (amended): for every successfully constructed stage whose
`batch_size` is positive, `get_num_batches` succeeds, lists the datasets'
keys in order with value `floor(len / batch_size)` (natural floor
division), and a split name has exactly one entry among those keys iff it
was requested in the configuration. -/
theorem C7_num_batches {α β : Type} (env : Env α β) (cfg : StageConfig)
    (st : TVState α β)
    (hok : (TorchVisionDataset.init env cfg).2 = .ok st)
    (hbs : 0 < st.batch_size) :
    st.get_num_batches = .ok (st.datasets.map fun kv =>
      (kv.1, ((kv.2.len / st.batch_size.toNat : Nat) : Int))) ∧
    ∀ s : String, s ∈ cfg.split.getD ["val"] ↔
      (st.datasets.map Prod.fst).count s = 1 := by
  obtain ⟨f, hds, _, _⟩ := init_ok_shape env cfg st hok
  refine ⟨get_num_batches_pos st hbs, ?_⟩
  intro s
  rw [hds]
  constructor
  · intro hs
    exact List.count_eq_one_of_mem (dictComp_keys_nodup _ f)
      ((dictComp_mem_keys f s _).mpr hs)
  · intro hc
    by_contra hnot
    rw [← dictComp_mem_keys f s (cfg.split.getD ["val"])] at hnot
    rw [List.count_eq_zero_of_not_mem hnot] at hc
    exact absurd hc (by decide)

/-- The stage state constructed by `envEx` with `batch_size = 2`. -/
def stPos : TVState Nat Nat :=
  ⟨false, [("val", .vision ⟨exRaw, some id⟩)], 2⟩

/-- Witness for `C7_num_batches` on the `"Example"` stage with
`batch_size = 2`. -/
theorem C7_num_batches_witness :
    TVState.get_num_batches stPos = .ok (stPos.datasets.map fun kv =>
      (kv.1, ((kv.2.len / stPos.batch_size.toNat : Nat) : Int))) ∧
    ∀ s : String,
      s ∈ ((⟨some "Example", none, none, none, some 2⟩ :
        StageConfig).split.getD ["val"]) ↔
      (stPos.datasets.map Prod.fst).count s = 1 :=
  C7_num_batches envEx ⟨some "Example", none, none, none, some 2⟩ stPos
    rfl (by decide)

/-- C8 (counterexample): the claim asserts that a non-positive
`batch_size` makes the stage fail with the configuration error rather
than computing batch counts.  With `batch_size = -3` construction
succeeds (no error of any kind) and `get_num_batches` happily computes
`10 // -3 == -4` (Python floor division). -/
theorem C8_counterexample :
    (TorchVisionDataset.init envEx
        ⟨some "Example", none, none, none, some (-3)⟩).2 =
      .ok ⟨false, [("val", .vision ⟨exRaw, some id⟩)], -3⟩ ∧
    TVState.get_num_batches
        (⟨false, [("val", .vision ⟨exRaw, some id⟩)], -3⟩ :
          TVState Nat Nat) =
      .ok [("val", -4)] :=
  ⟨rfl, rfl⟩

/-- C8 (amended): `batch_size` defaults to 1 when absent and is stored
exactly as configured, with no validation at all: whether construction
fails with the configuration error is independent of the configured
`batch_size`.  (With `batch_size = 0`, `get_num_batches` later raises
`ZeroDivisionError` — see `C7_counterexample` — and with a negative value
it computes floor-division counts — see `C8_counterexample`.) -/
theorem C8_batch_size_unvalidated {α β : Type} (env : Env α β)
    (cfg : StageConfig) (b : Option Int) :
    ((TorchVisionDataset.init env
        { cfg with batch_size := b }).2 = .error .configError ↔
      (TorchVisionDataset.init env cfg).2 = .error .configError) ∧
    ∀ st : TVState α β,
      (TorchVisionDataset.init env { cfg with batch_size := b }).2 =
        .ok st → st.batch_size = b.getD 1 := by
  obtain ⟨dn, sp, w, pl, bsz⟩ := cfg
  unfold TorchVisionDataset.init
  cases dn with
  | none => exact ⟨Iff.rfl, fun st hst => Except.noConfusion hst⟩
  | some name =>
    dsimp only
    cases hprov : env.providers name with
    | none => exact ⟨Iff.rfl, fun st hst => Except.noConfusion hst⟩
    | some dataset =>
      dsimp only
      cases w with
      | none =>
        refine ⟨⟨fun h => Except.noConfusion h,
          fun h => Except.noConfusion h⟩, ?_⟩
        intro st hst
        have h := Except.ok.inj hst
        rw [← h]
      | some wname =>
        dsimp only
        cases hgw : env.getWeight wname with
        | none => exact ⟨Iff.rfl, fun st hst => Except.noConfusion hst⟩
        | some preprocess =>
          refine ⟨⟨fun h => Except.noConfusion h,
            fun h => Except.noConfusion h⟩, ?_⟩
          intro st hst
          have h := Except.ok.inj hst
          rw [← h]

/-- Witness for `C8_batch_size_unvalidated`: discharging the
success hypothesis at the concretely constructed `batch_size = -3`
state. -/
theorem C8_batch_size_unvalidated_witness :
    (⟨false, [("val", .vision ⟨exRaw, some id⟩)], -3⟩ :
        TVState Nat Nat).batch_size = (some (-3) : Option Int).getD 1 :=
  (C8_batch_size_unvalidated envEx
      ⟨some "Example", none, none, none, none⟩ (some (-3))).2
    ⟨false, [("val", .vision ⟨exRaw, some id⟩)], -3⟩ rfl

/-- C3: a pass-through stage with a single input queue containing
`[A, B, sentinel]` produces output `[A, B, sentinel]` in that exact order
and then the loop exits (`terminated`), for any remaining fuel. -/
theorem C3_pass_through {α : Type} (fuel : Nat) (A B : α) :
    run (fuel + 3)
      ({ inputQueues := [[Record.data A, Record.data B, Record.sentinel]],
         outputQueues := [[]] } : RunState α) =
      .terminated { inputQueues := [[]],
                    outputQueues :=
                      [[Record.data A, Record.data B, Record.sentinel]] } :=
  rfl

end Collocation
